import Mathlib

/-
Verification of the highlight geometry, store, sync and export logic of the
my-pdf-editor repository.  JavaScript numbers are modelled as rationals,
JavaScript arrays as lists, and the Supabase highlight table as a list of rows.
Each definition is a direct transcription of the corresponding source function.
-/

namespace PdfEditor

/-- A highlight rectangle `{top, left, width, height}` (interface HighlightRect). -/
structure HRect where
  top : ℚ
  left : ℚ
  width : ℚ
  height : ℚ
deriving DecidableEq

/-- A screen point: the `top`/`left` of a DOMRect used as a page origin. -/
structure Pt where
  top : ℚ
  left : ℚ
deriving DecidableEq

/-- Storage normalization from `addHighlight` (PDFEditor.tsx):
`top: (cr.top - pageRect.top) / scale, left: (cr.left - pageRect.left) / scale,
width: cr.width / scale, height: cr.height / scale`. -/
def toStorageRect (cr : HRect) (origin : Pt) (scale : ℚ) : HRect :=
  { top := (cr.top - origin.top) / scale
    left := (cr.left - origin.left) / scale
    width := cr.width / scale
    height := cr.height / scale }

/-- Re-projection of a stored rectangle to screen space at a given scale, from the
overlay rendering in PDFEditor.tsx: `top: rect.top * scale, left: rect.left * scale,
width: rect.width * scale, height: rect.height * scale`. -/
def toScreenRect (r : HRect) (scale : ℚ) : HRect :=
  { top := r.top * scale
    left := r.left * scale
    width := r.width * scale
    height := r.height * scale }

/-- The round trip of spec property 1: capture a screen rectangle at scale `s1`
(`toStorageRect` with the page origin), re-project with `toScreenRect` at `s2`,
then rescale the result back to scale `s1` (a pure rescale: divide by `s2`,
multiply by `s1`, no origin involved). -/
def roundTrip (r : HRect) (o : Pt) (s1 s2 : ℚ) : HRect :=
  toScreenRect (toStorageRect (toScreenRect (toStorageRect r o s1) s2) ⟨0, 0⟩ s2) s1

/-- A highlight as held by the client store and sent to the sync route
(interface Highlight / ClientHighlight of the sync route). -/
structure Highlight where
  id : String
  page_number : ℤ
  rects : List HRect
  selected_text : String
  color : Option String
deriving DecidableEq

/-- The slice of the PDFEditorComponent state that the highlight operations touch. -/
structure EditorState where
  highlights : List Highlight
  hasUnsavedChanges : Bool
  scale : ℚ
  pageNumber : ℤ
  currentPdfId : Option String
  selectedHighlightColor : String
deriving DecidableEq

/-- The data `addHighlight` reads from `window.getSelection()`: whether the selection
is missing/collapsed, the client rectangles of the selected range, and its text. -/
structure SelectionInput where
  collapsed : Bool
  clientRects : List HRect
  text : String
deriving DecidableEq

/-- The storage rectangles produced for a selection:
`clientRects.map(cr => toStorageRect cr pageRect scale)` in `addHighlight`. -/
def mappedRects (st : EditorState) (sel : SelectionInput) (pageOrigin : Pt) : List HRect :=
  sel.clientRects.map fun cr => toStorageRect cr pageOrigin st.scale

/-- The abort guard of `addHighlight`:
`newHighlightRects.length === 0 || newHighlightRects.every(r => r.width === 0 || r.height === 0)`. -/
def captureDegenerate (st : EditorState) (sel : SelectionInput) (pageOrigin : Pt) : Bool :=
  (mappedRects st sel pageOrigin).isEmpty
    || (mappedRects st sel pageOrigin).all fun r => decide (r.width = 0) || decide (r.height = 0)

/-- `addHighlight` from PDFEditor.tsx: abort on a missing/collapsed selection, map the
client rectangles to storage rectangles, abort when the guard trips, otherwise append a
new Highlight with ALL mapped rectangles and set the unsaved-changes flag. -/
def addHighlight (st : EditorState) (sel : SelectionInput) (pageOrigin : Pt)
    (newId : String) : EditorState :=
  if sel.collapsed then st
  else if captureDegenerate st sel pageOrigin then st
  else
    { st with
      highlights := st.highlights ++
        [{ id := newId
           page_number := st.pageNumber
           rects := mappedRects st sel pageOrigin
           selected_text := sel.text
           color := some st.selectedHighlightColor }]
      hasUnsavedChanges := true }

/-- `handleDeleteHighlight`: filter out the id and set the unsaved-changes flag. -/
def handleDeleteHighlight (st : EditorState) (hid : String) : EditorState :=
  { st with
    highlights := st.highlights.filter fun h => h.id != hid
    hasUnsavedChanges := true }

/-- `handleSaveHighlights`: no-op without a managed pdf id or without unsaved changes;
otherwise POST the highlights and clear the unsaved-changes flag only when the
response is ok (`responseOk`); on a failed response or network error the state,
including the flag, is left unchanged. -/
def handleSaveHighlights (st : EditorState) (responseOk : Bool) : EditorState :=
  if st.currentPdfId = none then st
  else if st.hasUnsavedChanges = false then st
  else if responseOk then { st with hasUnsavedChanges := false }
  else st

/-- Rounding to one decimal place: `parseFloat(x.toFixed(1))` on an exact rational. -/
def round1 (q : ℚ) : ℚ := (round (q * 10) : ℤ) / 10

/-- `zoomIn`: `setScale(s => parseFloat((s + 0.2).toFixed(1)))`. -/
def zoomInStep (s : ℚ) : ℚ := round1 (s + 2/10)

/-- `zoomOut`: `setScale(s => parseFloat(Math.max(0.2, s - 0.2).toFixed(1)))`. -/
def zoomOutStep (s : ℚ) : ℚ := round1 (max (2/10) (s - 2/10))

/-- `resetZoom`: `setScale(1.8)`; also the initial value `useState(1.8)`. -/
def resetZoomVal : ℚ := 9/5

/-- The zoom scales reachable from the initial state through the three zoom controls. -/
inductive ScaleReachable : ℚ → Prop
  | init : ScaleReachable resetZoomVal
  | zin {s : ℚ} : ScaleReachable s → ScaleReachable (zoomInStep s)
  | zout {s : ℚ} : ScaleReachable s → ScaleReachable (zoomOutStep s)
  | reset {s : ℚ} : ScaleReachable s → ScaleReachable resetZoomVal

/-- The sort key used by the sidebar grouping: `a.rects[0]?.top` (0 when absent;
the claims only concern highlights with non-empty `rects`). -/
def topOf (h : Highlight) : ℚ :=
  match h.rects with
  | [] => 0
  | r :: _ => r.top

/-- Comparator order of `(a, b) => a.rects[0]?.top - b.rects[0]?.top`. -/
def topLE (a b : Highlight) : Prop := topOf a ≤ topOf b

instance : DecidableRel topLE := fun a b => inferInstanceAs (Decidable (topOf a ≤ topOf b))

instance : IsTotal Highlight topLE := ⟨fun a b => le_total (topOf a) (topOf b)⟩

instance : IsTrans Highlight topLE := ⟨fun _ _ _ hab hbc => le_trans hab hbc⟩

/-- Model of the stable JavaScript `Array.prototype.sort` with comparator
`a.rects[0]?.top - b.rects[0]?.top` (ECMAScript sort is stable). -/
def sortTop (l : List Highlight) : List Highlight := l.insertionSort topLE

/-- The per-page accumulation of `allHighlightsGroupedByPage`: the reduce pushes each
highlight of the page and re-sorts that page's array after every push.  The record
`acc` is modelled pointwise at page key `p`. -/
def pageGroup (p : ℤ) (l : List Highlight) : List Highlight :=
  l.foldl (fun s h => if h.page_number = p then sortTop (s ++ [h]) else s) []

/-- Insertion of a later element into an already sorted list after all elements of
equal key: the specification order "ascending `rects[0].top`, ties broken by
insertion order". -/
def insertLate (x : Highlight) : List Highlight → List Highlight
  | [] => [x]
  | b :: l => if topOf x < topOf b then x :: b :: l else b :: insertLate x l

/-- Left-to-right stable ordering by `rects[0].top`: each element is inserted after
all previously inserted elements with an equal key. -/
def stableByTop (l : List Highlight) : List Highlight :=
  l.foldl (fun s h => insertLate h s) []

/-- `Object.keys(allHighlightsGroupedByPage).map(Number).sort((a, b) => a - b)`:
the distinct page numbers, sorted ascending. -/
def pagesWithHighlights (l : List Highlight) : List ℤ :=
  ((l.map fun h => h.page_number).dedup).insertionSort (· ≤ ·)

/-- A row of the `highlights` table as written by the sync route (the client `id`
is dropped by the insert mapping). -/
structure DbRow where
  pdf_id : String
  page_number : ℤ
  rects : List HRect
  selected_text : String
  color : Option String
deriving DecidableEq

/-- The insert mapping of the sync route POST handler. -/
def toRow (pdfId : String) (h : Highlight) : DbRow :=
  { pdf_id := pdfId
    page_number := h.page_number
    rects := h.rects
    selected_text := h.selected_text
    color := h.color }

/-- The sync operation of the POST handler of the pdf-highlights route: delete all
rows with this `pdf_id`, then, only when the client list is non-empty, insert the
mapped rows. -/
def syncHighlights (pdfId : String) (hs : List Highlight) (db : List DbRow) : List DbRow :=
  let afterDelete := db.filter fun r => r.pdf_id != pdfId
  if 0 < hs.length then afterDelete ++ hs.map (toRow pdfId) else afterDelete

/-- The POST handler including its validation
(`if (!pdfId || !Array.isArray(clientHighlights))` returns 400): result is the HTTP
status together with the table contents afterwards.  A missing body field is `none`;
an empty-string `pdfId` is falsy and also rejected. -/
def postSyncHighlights (pdfId : Option String) (hs : Option (List Highlight))
    (db : List DbRow) : ℕ × List DbRow :=
  match pdfId, hs with
  | some pid, some l => if pid = "" then (400, db) else (200, syncHighlights pid l db)
  | _, _ => (400, db)

/-- Digit run parsing: value of a `\d+` capture under `parseInt`. -/
def natOfDigits (l : List Char) : ℕ :=
  l.foldl (fun n c => 10 * n + (c.toNat - '0'.toNat)) 0

/-- Characters matched by the `[\d.]` class of the alpha capture. -/
def isDigitDot (c : Char) : Bool := c.isDigit || c == '.'

/-- Characters matched by `\s` in the color pattern (the forms that occur). -/
def isWS (c : Char) : Bool := c == ' ' || c == '\t' || c == '\n' || c == '\r'

/-- `parseFloat` on a non-empty string drawn from `[\d.]+`: an optional integer
part, an optional fraction after the first dot; a string with no leading digits
and no digit after a leading dot is NaN (`none`). -/
def parseFloatDD (l : List Char) : Option ℚ :=
  match l with
  | '.' :: t =>
    let f := t.takeWhile Char.isDigit
    if f.isEmpty then none
    else some ((natOfDigits f : ℚ) / 10 ^ f.length)
  | _ =>
    let ip := l.takeWhile Char.isDigit
    let r := l.dropWhile Char.isDigit
    if ip.isEmpty then none
    else
      match r with
      | '.' :: t =>
        let f := t.takeWhile Char.isDigit
        some ((natOfDigits ip : ℚ) + (natOfDigits f : ℚ) / 10 ^ f.length)
      | _ => some (natOfDigits ip : ℚ)

/-- Anchored match of `rgba?\((\d+),\s*(\d+),\s*(\d+)(?:,\s*([\d.]+))?\)` at the head
of the list; returns the three parsed integer captures and the raw alpha capture.
The pattern is deterministic: each `\d+`/`[\d.]+` takes its maximal run (no shorter
run can be followed by the required delimiter), and when the optional alpha group
fails the mandatory `\)` cannot match the `,` either. -/
def matchColorAt (l : List Char) : Option (ℕ × ℕ × ℕ × Option (List Char)) :=
  match l with
  | 'r' :: 'g' :: 'b' :: rest =>
    let rest1 := match rest with
      | 'a' :: r => r
      | r => r
    match rest1 with
    | '(' :: r2 =>
      let d1 := r2.takeWhile Char.isDigit
      let r3 := r2.dropWhile Char.isDigit
      if d1.isEmpty then none
      else
        match r3 with
        | ',' :: r4 =>
          let r5 := r4.dropWhile isWS
          let d2 := r5.takeWhile Char.isDigit
          let r6 := r5.dropWhile Char.isDigit
          if d2.isEmpty then none
          else
            match r6 with
            | ',' :: r7 =>
              let r8 := r7.dropWhile isWS
              let d3 := r8.takeWhile Char.isDigit
              let r9 := r8.dropWhile Char.isDigit
              if d3.isEmpty then none
              else
                match r9 with
                | ',' :: r10 =>
                  let r11 := r10.dropWhile isWS
                  let dd := r11.takeWhile isDigitDot
                  let r12 := r11.dropWhile isDigitDot
                  if dd.isEmpty then none
                  else
                    match r12 with
                    | ')' :: _ => some (natOfDigits d1, natOfDigits d2, natOfDigits d3, some dd)
                    | _ => none
                | ')' :: _ => some (natOfDigits d1, natOfDigits d2, natOfDigits d3, none)
                | _ => none
            | _ => none
        | _ => none
    | _ => none
  | _ => none

/-- Unanchored search of `String.prototype.match`: the first position at which the
color pattern matches. -/
def findColorMatch : List Char → Option (ℕ × ℕ × ℕ × Option (List Char))
  | [] => none
  | c :: t =>
    match matchColorAt (c :: t) with
    | some g => some g
    | none => findColorMatch t

/-- Color and opacity resolution of the export route: defaults `rgb(1, 1, 0)` and
opacity `0.3`; on a successful match the channels are each `parseInt(c) / 255`, and
the opacity is `parseFloat` of the alpha capture verbatim when present, else `1.0`.
`none` as an opacity stands for NaN from `parseFloat`. -/
def resolveColorOpacity (color : Option (List Char)) : (ℚ × ℚ × ℚ) × Option ℚ :=
  match color with
  | none => ((1, 1, 0), some (3/10))
  | some s =>
    match findColorMatch s with
    | none => ((1, 1, 0), some (3/10))
    | some (n1, n2, n3, a) =>
      (((n1 : ℚ) / 255, (n2 : ℚ) / 255, (n3 : ℚ) / 255),
        match a with
        | none => some 1
        | some dd => parseFloatDD dd)

/-- A highlight as received by the export route. -/
structure EHighlight where
  id : String
  pageNumber : ℤ
  rects : List HRect
  selectedText : String
  color : Option (List Char)
deriving DecidableEq

/-- One `page.drawRectangle` call of the export route. -/
structure DrawCmd where
  x : ℚ
  y : ℚ
  width : ℚ
  height : ℚ
  color : ℚ × ℚ × ℚ
  opacity : Option ℚ
deriving DecidableEq

/-- The inner rectangle loop of the export route:
`x = rect.left`, `y = pageHeight - rect.top - rect.height`, width and height
unchanged, drawn with the resolved color and opacity. -/
def drawsForHighlight (pageHeight : ℚ) (resolved : (ℚ × ℚ × ℚ) × Option ℚ)
    (rects : List HRect) : List DrawCmd :=
  rects.map fun r =>
    { x := r.left
      y := pageHeight - r.top - r.height
      width := r.width
      height := r.height
      color := resolved.1
      opacity := resolved.2 }

/-- The highlight loop of the export route over a document whose pages have the
given `(width, height)` sizes: a highlight whose `pageNumber <= 0 || pageNumber >
pages.length` is skipped (`continue`), every other highlight contributes one draw
per rectangle on its 0-indexed page. -/
def exportDraws (pages : List (ℚ × ℚ)) : List EHighlight → List DrawCmd
  | [] => []
  | hl :: rest =>
    (if hl.pageNumber ≤ 0 ∨ (pages.length : ℤ) < hl.pageNumber then []
     else
       drawsForHighlight (pages.getD (hl.pageNumber - 1).toNat (0, 0)).2
         (resolveColorOpacity hl.color) hl.rects)
    ++ exportDraws pages rest

/-- The abort guard of `addHighlight`, expressed propositionally: the rectangle list
is empty or every rectangle has zero width or zero height. -/
theorem captureDegenerate_iff (st : EditorState) (sel : SelectionInput) (o : Pt) :
    captureDegenerate st sel o = true ↔
      (mappedRects st sel o = [] ∨
        ∀ r ∈ mappedRects st sel o, r.width = 0 ∨ r.height = 0) := by
  simp [captureDegenerate, List.isEmpty_iff, List.all_eq_true]

/-- Claim C2 (counterexample): the round trip does not reproduce the original
rectangle for every page origin — with origin `(3, 4)`, capture scale `2` and
display scale `1`, the rectangle `{top 10, left 10, width 5, height 5}` comes back
as `{top 7, left 6, width 5, height 5}`. -/
theorem claim_C2_counterexample :
    roundTrip ⟨10, 10, 5, 5⟩ ⟨3, 4⟩ 2 1 ≠ ⟨10, 10, 5, 5⟩ := by
  norm_num [roundTrip, toScreenRect, toStorageRect, HRect.mk.injEq]

/-- Claim C2 (amended): for non-zero scales the round trip reproduces the rectangle
translated by the page origin — top and left come back relative to the page origin,
width and height come back exactly; the original rectangle itself is reproduced
exactly when the page origin is `(0, 0)`. -/
theorem claim_C2_roundTrip (r : HRect) (o : Pt) (s1 s2 : ℚ)
    (h1 : s1 ≠ 0) (h2 : s2 ≠ 0) :
    roundTrip r o s1 s2 = ⟨r.top - o.top, r.left - o.left, r.width, r.height⟩ := by
  unfold roundTrip toScreenRect toStorageRect
  simp only [HRect.mk.injEq]
  refine ⟨?_, ?_, ?_, ?_⟩ <;> field_simp <;> ring

/-- Witness for C2: a concrete round trip with origin `(5, 6)` and scales `2`, `3`. -/
theorem claim_C2_witness :
    roundTrip ⟨1, 2, 3, 4⟩ ⟨5, 6⟩ 2 3 = ⟨1 - 5, 2 - 6, 3, 4⟩ :=
  claim_C2_roundTrip ⟨1, 2, 3, 4⟩ ⟨5, 6⟩ 2 3 (by norm_num) (by norm_num)

/-- Claim C3: for a highlight on a valid page, the export engine draws each stored
rectangle at `x = left`, `y = pageHeight - top - height` with width and height
unchanged and no scale factor anywhere. -/
theorem claim_C3_coordInversion (pages : List (ℚ × ℚ)) (hl : EHighlight)
    (h1 : 1 ≤ hl.pageNumber) (h2 : hl.pageNumber ≤ (pages.length : ℤ)) :
    exportDraws pages [hl] =
      hl.rects.map fun r =>
        { x := r.left
          y := (pages.getD (hl.pageNumber - 1).toNat (0, 0)).2 - r.top - r.height
          width := r.width
          height := r.height
          color := (resolveColorOpacity hl.color).1
          opacity := (resolveColorOpacity hl.color).2 } := by
  have hg : ¬(hl.pageNumber ≤ 0 ∨ (pages.length : ℤ) < hl.pageNumber) := by omega
  simp [exportDraws, hg, drawsForHighlight]

/-- Witness for C3: the spec's example — `{top 10, left 5, width 100, height 20}` on
a page of height 800 is drawn at `x = 5`, `y = 770` with unchanged dimensions. -/
theorem claim_C3_witness :
    exportDraws [(1000, 800)] [⟨"h1", 1, [⟨10, 5, 100, 20⟩], "t", none⟩] =
      [{ x := 5, y := 770, width := 100, height := 20,
         color := (1, 1, 0), opacity := some (3/10) }] := by
  have h := claim_C3_coordInversion [(1000, 800)]
    ⟨"h1", 1, [⟨10, 5, 100, 20⟩], "t", none⟩ (by decide) (by decide)
  rw [h]
  norm_num [resolveColorOpacity, List.getD]

/-- Claim C4: color resolution of the export engine — an absent or unparseable color
draws `rgb(1, 1, 0)` at opacity `0.3`; a match with exactly three components draws at
opacity `1.0`; a present alpha component is used verbatim as the opacity, with no
clamping. -/
theorem claim_C4_colorResolution :
    resolveColorOpacity none = ((1, 1, 0), some (3/10)) ∧
    (∀ s, findColorMatch s = none →
      resolveColorOpacity (some s) = ((1, 1, 0), some (3/10))) ∧
    (∀ s n1 n2 n3, findColorMatch s = some (n1, n2, n3, none) →
      resolveColorOpacity (some s) =
        (((n1 : ℚ) / 255, (n2 : ℚ) / 255, (n3 : ℚ) / 255), some 1)) ∧
    (∀ s n1 n2 n3 dd, findColorMatch s = some (n1, n2, n3, some dd) →
      resolveColorOpacity (some s) =
        (((n1 : ℚ) / 255, (n2 : ℚ) / 255, (n3 : ℚ) / 255), parseFloatDD dd)) := by
  refine ⟨rfl, ?_, ?_, ?_⟩ <;> intros <;> simp [resolveColorOpacity, *]

/-- Witness for C4: an unparseable color falls back to yellow at 0.3; an rgb color
with three components draws at opacity 1; an rgba alpha of 2.5 is passed through
verbatim even though it exceeds 1. -/
theorem claim_C4_witness :
    resolveColorOpacity (some ['x']) = ((1, 1, 0), some (3/10)) ∧
    resolveColorOpacity
        (some ['r', 'g', 'b', '(', '1', '0', ',', '2', '0', ',', '3', '0', ')']) =
      ((((10 : ℕ) : ℚ) / 255, ((20 : ℕ) : ℚ) / 255, ((30 : ℕ) : ℚ) / 255), some 1) ∧
    resolveColorOpacity
        (some ['r', 'g', 'b', 'a', '(', '1', '0', ',', '2', '0', ',', '3', '0', ',',
          '2', '.', '5', ')']) =
      ((((10 : ℕ) : ℚ) / 255, ((20 : ℕ) : ℚ) / 255, ((30 : ℕ) : ℚ) / 255),
        parseFloatDD ['2', '.', '5']) ∧
    parseFloatDD ['2', '.', '5'] = some (5/2) ∧ (1 : ℚ) < 5/2 := by
  refine ⟨claim_C4_colorResolution.2.1 ['x'] (by decide),
    claim_C4_colorResolution.2.2.1
      ['r', 'g', 'b', '(', '1', '0', ',', '2', '0', ',', '3', '0', ')']
      10 20 30 (by decide),
    claim_C4_colorResolution.2.2.2
      ['r', 'g', 'b', 'a', '(', '1', '0', ',', '2', '0', ',', '3', '0', ',',
        '2', '.', '5', ')']
      10 20 30 ['2', '.', '5'] (by decide),
    ?_, by norm_num⟩
  have h : parseFloatDD ['2', '.', '5'] =
      some ((natOfDigits ['2'] : ℚ) + (natOfDigits ['5'] : ℚ) /
        10 ^ (['5'] : List Char).length) := rfl
  have h1 : natOfDigits ['2'] = 2 := by decide
  have h2 : natOfDigits ['5'] = 5 := by decide
  rw [h, h1, h2]
  norm_num

/-- Claim C5: a highlight whose page number is outside `1 ≤ pageNumber ≤ totalPages`
is skipped by the export engine and processing continues with the remaining
highlights (the loop never throws; the model is a total function). -/
theorem claim_C5_invalidPageSkipped (pages : List (ℚ × ℚ)) (hl : EHighlight)
    (rest : List EHighlight)
    (hinv : ¬(1 ≤ hl.pageNumber ∧ hl.pageNumber ≤ (pages.length : ℤ))) :
    exportDraws pages (hl :: rest) = exportDraws pages rest := by
  have hg : hl.pageNumber ≤ 0 ∨ (pages.length : ℤ) < hl.pageNumber := by omega
  simp [exportDraws, hg]

/-- Witness for C5: a one-page document; the highlight for page 5 is dropped and the
highlight for page 1 is still exported. -/
theorem claim_C5_witness :
    exportDraws [(600, 800)]
        [⟨"bad", 5, [⟨1, 1, 2, 2⟩], "t", none⟩, ⟨"ok", 1, [⟨1, 1, 2, 2⟩], "u", none⟩] =
      exportDraws [(600, 800)] [⟨"ok", 1, [⟨1, 1, 2, 2⟩], "u", none⟩] :=
  claim_C5_invalidPageSkipped _ _ _ (by decide)

/-- Rows of other documents pass the delete filter unchanged; running the delete
filter twice equals running it once. -/
theorem filter_ne_idem (pid : String) (l : List DbRow) :
    ((l.filter fun r => r.pdf_id != pid).filter fun r => r.pdf_id != pid) =
      l.filter fun r => r.pdf_id != pid := by
  induction l with
  | nil => rfl
  | cons a t ih =>
      by_cases h : a.pdf_id = pid
      · simp [List.filter_cons, h, ih]
      · simp [List.filter_cons, h, ih]

/-- Every row inserted by the sync belongs to the synced document, so the next
sync's delete removes exactly the inserted rows. -/
theorem filter_ne_map_toRow (pid : String) (hs : List Highlight) :
    ((hs.map (toRow pid)).filter fun r => r.pdf_id != pid) = [] := by
  induction hs with
  | nil => rfl
  | cons a t ih => simp [List.filter_cons, toRow, ih]

/-- Claim C8: the delete-all-then-insert-all sync is idempotent — running it twice
with the same highlight set leaves the highlight table in exactly the same state as
running it once. -/
theorem claim_C8_syncIdempotent (pdfId : String) (hs : List Highlight)
    (db : List DbRow) :
    syncHighlights pdfId hs (syncHighlights pdfId hs db) = syncHighlights pdfId hs db := by
  unfold syncHighlights
  by_cases h : 0 < hs.length
  · simp only [h, if_true]
    rw [List.filter_append, filter_ne_idem, filter_ne_map_toRow, List.append_nil]
  · simp only [h, if_false]
    exact filter_ne_idem pdfId db

/-- Claim C10: an empty highlights array with a valid document id passes validation,
executes the delete of every row of that document, skips the insert, and returns
success — the document's server-side highlights are wiped. -/
theorem claim_C10_emptySyncWipes (pid : String) (db : List DbRow) (hne : pid ≠ "") :
    postSyncHighlights (some pid) (some []) db =
      (200, db.filter fun r => r.pdf_id != pid) ∧
    ((db.filter fun r => r.pdf_id != pid).filter fun r => r.pdf_id == pid) = [] := by
  constructor
  · simp [postSyncHighlights, hne, syncHighlights]
  · refine List.filter_eq_nil_iff.2 fun a ha => ?_
    have hmem := List.of_mem_filter ha
    simp only [bne_iff_ne, ne_eq] at hmem
    simp [hmem]

/-- Witness for C10: syncing the empty set for "doc" returns 200 and leaves only the
other document's row. -/
theorem claim_C10_witness :
    postSyncHighlights (some "doc") (some [])
        [⟨"doc", 1, [⟨1, 1, 2, 2⟩], "t", none⟩, ⟨"other", 1, [⟨1, 1, 2, 2⟩], "u", none⟩] =
      (200, [⟨"other", 1, [⟨1, 1, 2, 2⟩], "u", none⟩]) := by
  have h := claim_C10_emptySyncWipes "doc"
    [⟨"doc", 1, [⟨1, 1, 2, 2⟩], "t", none⟩, ⟨"other", 1, [⟨1, 1, 2, 2⟩], "u", none⟩]
    (by decide)
  rw [h.1]; decide

/-- Claim C1 (counterexample): a selection producing one zero-width rectangle next to
one non-degenerate rectangle commits a Highlight that still contains the zero-width
rectangle — the capturer performs no per-rectangle filtering, so the store holds a
rectangle with a zero dimension. -/
theorem claim_C1_counterexample :
    ∃ h ∈ (addHighlight ⟨[], false, 1, 1, none, "c"⟩
        ⟨false, [⟨0, 0, 0, 5⟩, ⟨0, 0, 4, 5⟩], "t"⟩ ⟨0, 0⟩ "h1").highlights,
      ∃ r ∈ h.rects, r.width = 0 := by
  have hm : mappedRects ⟨[], false, 1, 1, none, "c"⟩
      ⟨false, [⟨0, 0, 0, 5⟩, ⟨0, 0, 4, 5⟩], "t"⟩ ⟨0, 0⟩ =
        [⟨0, 0, 0, 5⟩, ⟨0, 0, 4, 5⟩] := by
    norm_num [mappedRects, toStorageRect]
  have hg : captureDegenerate ⟨[], false, 1, 1, none, "c"⟩
      ⟨false, [⟨0, 0, 0, 5⟩, ⟨0, 0, 4, 5⟩], "t"⟩ ⟨0, 0⟩ = false := by
    unfold captureDegenerate
    rw [hm]
    decide
  have hadd : (addHighlight ⟨[], false, 1, 1, none, "c"⟩
      ⟨false, [⟨0, 0, 0, 5⟩, ⟨0, 0, 4, 5⟩], "t"⟩ ⟨0, 0⟩ "h1").highlights =
        [{ id := "h1", page_number := 1,
           rects := mappedRects ⟨[], false, 1, 1, none, "c"⟩
             ⟨false, [⟨0, 0, 0, 5⟩, ⟨0, 0, 4, 5⟩], "t"⟩ ⟨0, 0⟩,
           selected_text := "t", color := some "c" }] := by
    simp [addHighlight, hg]
  rw [hadd, hm]
  decide

/-- Claim C1 (amended): the capturer aborts (creating no Highlight) exactly when the
produced rectangle list is empty or every produced rectangle has zero width or zero
height; otherwise it creates a Highlight containing all produced rectangles —
including degenerate ones — unfiltered. -/
theorem claim_C1_captureGuard (st : EditorState) (sel : SelectionInput) (o : Pt)
    (nid : String) (hsel : sel.collapsed = false) :
    ((mappedRects st sel o = [] ∨
        ∀ r ∈ mappedRects st sel o, r.width = 0 ∨ r.height = 0) →
      addHighlight st sel o nid = st) ∧
    (¬(mappedRects st sel o = [] ∨
        ∀ r ∈ mappedRects st sel o, r.width = 0 ∨ r.height = 0) →
      (addHighlight st sel o nid).highlights =
        st.highlights ++
          [{ id := nid
             page_number := st.pageNumber
             rects := mappedRects st sel o
             selected_text := sel.text
             color := some st.selectedHighlightColor }]) := by
  constructor <;> intro h
  · have hg : captureDegenerate st sel o = true := (captureDegenerate_iff st sel o).2 h
    simp [addHighlight, hsel, hg]
  · have hg : captureDegenerate st sel o = false := by
      rcases Bool.eq_false_or_eq_true (captureDegenerate st sel o) with hf | ht
      · exact absurd ((captureDegenerate_iff st sel o).1 hf) h
      · exact ht
    simp [addHighlight, hsel, hg]

/-- Witness for C1 (amended): an all-degenerate selection aborts; a mixed selection
commits a highlight holding both rectangles, the zero-width one included. -/
theorem claim_C1_witness :
    addHighlight ⟨[], false, 1, 2, none, "c"⟩ ⟨false, [⟨0, 0, 0, 5⟩], "t"⟩ ⟨0, 0⟩ "h1" =
      ⟨[], false, 1, 2, none, "c"⟩ ∧
    (addHighlight ⟨[], false, 1, 2, none, "c"⟩
        ⟨false, [⟨0, 0, 0, 5⟩, ⟨0, 0, 4, 5⟩], "t"⟩ ⟨0, 0⟩ "h2").highlights =
      [⟨"h2", 2, [⟨0, 0, 0, 5⟩, ⟨0, 0, 4, 5⟩], "t", some "c"⟩] := by
  have hm1 : mappedRects ⟨[], false, 1, 2, none, "c"⟩ ⟨false, [⟨0, 0, 0, 5⟩], "t"⟩ ⟨0, 0⟩ =
      [⟨0, 0, 0, 5⟩] := by
    norm_num [mappedRects, toStorageRect]
  have hm2 : mappedRects ⟨[], false, 1, 2, none, "c"⟩
      ⟨false, [⟨0, 0, 0, 5⟩, ⟨0, 0, 4, 5⟩], "t"⟩ ⟨0, 0⟩ =
        [⟨0, 0, 0, 5⟩, ⟨0, 0, 4, 5⟩] := by
    norm_num [mappedRects, toStorageRect]
  constructor
  · exact (claim_C1_captureGuard ⟨[], false, 1, 2, none, "c"⟩
      ⟨false, [⟨0, 0, 0, 5⟩], "t"⟩ ⟨0, 0⟩ "h1" rfl).1 (by rw [hm1]; decide)
  · have h := (claim_C1_captureGuard ⟨[], false, 1, 2, none, "c"⟩
      ⟨false, [⟨0, 0, 0, 5⟩, ⟨0, 0, 4, 5⟩], "t"⟩ ⟨0, 0⟩ "h2" rfl).2 (by rw [hm2]; decide)
    rw [h, hm2]
    decide

/-- Claim C7: a committing capture and every delete set the unsaved-changes flag; a
failed save leaves the flag (and the whole state) unchanged; the flag is cleared only
by a save whose response is ok, which also requires a managed document id. -/
theorem claim_C7_dirtyFlag (st st1 st2 : EditorState) (sel : SelectionInput) (o : Pt)
    (nid hid : String) (ok : Bool)
    (hsel : sel.collapsed = false) (hdeg : captureDegenerate st sel o = false) :
    (addHighlight st sel o nid).hasUnsavedChanges = true ∧
    (handleDeleteHighlight st1 hid).hasUnsavedChanges = true ∧
    (handleSaveHighlights st2 false).hasUnsavedChanges = st2.hasUnsavedChanges ∧
    ((handleSaveHighlights st2 ok).hasUnsavedChanges = false →
      st2.hasUnsavedChanges = true → ok = true ∧ st2.currentPdfId ≠ none) := by
  refine ⟨by simp [addHighlight, hsel, hdeg], rfl, ?_, ?_⟩
  · unfold handleSaveHighlights
    split_ifs <;> simp_all
  · intro hres hdirty
    unfold handleSaveHighlights at hres
    split_ifs at hres with ha hb hc
    · exact absurd hdirty (by simp [hres])
    · exact absurd hdirty (by simp [hb])
    · exact ⟨hc, ha⟩
    · exact absurd hdirty (by simp [hres])

/-- Witness for C7: concrete add, delete, failed save and successful save. -/
theorem claim_C7_witness :
    (addHighlight ⟨[], false, 1, 1, none, "c"⟩
        ⟨false, [⟨1, 1, 2, 3⟩], "t"⟩ ⟨0, 0⟩ "h1").hasUnsavedChanges = true ∧
    (handleDeleteHighlight ⟨[], false, 1, 1, none, "c"⟩ "x").hasUnsavedChanges = true ∧
    (handleSaveHighlights ⟨[], true, 1, 1, some "d", "c"⟩ false).hasUnsavedChanges = true ∧
    (true = true ∧ (some "d" : Option String) ≠ none) := by
  have hm : mappedRects ⟨[], false, 1, 1, none, "c"⟩ ⟨false, [⟨1, 1, 2, 3⟩], "t"⟩ ⟨0, 0⟩ =
      [⟨1, 1, 2, 3⟩] := by
    norm_num [mappedRects, toStorageRect]
  have h := claim_C7_dirtyFlag ⟨[], false, 1, 1, none, "c"⟩ ⟨[], false, 1, 1, none, "c"⟩
    ⟨[], true, 1, 1, some "d", "c"⟩ ⟨false, [⟨1, 1, 2, 3⟩], "t"⟩ ⟨0, 0⟩ "h1" "x" true
    rfl (by unfold captureDegenerate; rw [hm]; decide)
  exact ⟨h.1, h.2.1, h.2.2.1, h.2.2.2 (by decide) rfl⟩

/-- One-decimal rounding moves a value down by at most `1/20`. -/
theorem round1_ge (q : ℚ) : q - 1/20 ≤ round1 q := by
  have h := abs_sub_round (q * 10)
  rw [abs_le] at h
  unfold round1
  have h2 : q * 10 - 1/2 ≤ (round (q * 10) : ℚ) := by linarith [h.1]
  linarith

/-- One-decimal rounding is monotone. -/
theorem round1_mono {a b : ℚ} (h : a ≤ b) : round1 a ≤ round1 b := by
  unfold round1
  have hr : round (a * 10) ≤ round (b * 10) := by
    rw [round_eq, round_eq]
    exact Int.floor_le_floor (by linarith)
  have hc : ((round (a * 10) : ℤ) : ℚ) ≤ ((round (b * 10) : ℤ) : ℚ) := Int.cast_le.2 hr
  linarith

/-- `zoomOut` never goes below `0.2`: the `Math.max` clamp survives the rounding. -/
theorem zoomOut_ge (t : ℚ) : 1/5 ≤ zoomOutStep t := by
  unfold zoomOutStep
  have h1 : (1/5 : ℚ) ≤ max (2/10) (t - 2/10) := by
    have := le_max_left (2/10 : ℚ) (t - 2/10)
    linarith
  have h2 := round1_mono h1
  have h3 : round1 (1/5) = 1/5 := by
    have he : ((1/5 : ℚ) * 10) = ((2 : ℤ) : ℚ) := by norm_num
    unfold round1
    rw [he, round_intCast]
    norm_num
  linarith

/-- `zoomIn` strictly increases the scale. -/
theorem zoomIn_gt (t : ℚ) : t < zoomInStep t := by
  unfold zoomInStep
  have := round1_ge (t + 2/10)
  linarith

/-- Claim C9: every reachable zoom scale satisfies `0.2 ≤ scale` (hence is strictly
positive, so the divisions of storage normalization never divide by zero); moreover
`zoomIn` strictly increases any scale and `zoomOut` clamps at `0.2` from below. -/
theorem claim_C9_scaleInvariant (s : ℚ) (h : ScaleReachable s) :
    (1/5 ≤ s ∧ 0 < s) ∧ (∀ t : ℚ, t < zoomInStep t) ∧ (∀ t : ℚ, 1/5 ≤ zoomOutStep t) := by
  refine ⟨?_, fun t => zoomIn_gt t, fun t => zoomOut_ge t⟩
  induction h with
  | init => constructor <;> norm_num [resetZoomVal]
  | @zin s' _ ih =>
      have h1 := round1_ge (s' + 2/10)
      have h2 : (1/5 : ℚ) ≤ zoomInStep s' := by
        unfold zoomInStep
        linarith [ih.1]
      exact ⟨h2, by linarith⟩
  | @zout s' _ _ =>
      exact ⟨zoomOut_ge s', by linarith [zoomOut_ge s']⟩
  | @reset s' _ _ => constructor <;> norm_num [resetZoomVal]

/-- Witness for C9: the initial scale `1.8` is reachable and satisfies the bound;
concrete zoom steps behave as stated. -/
theorem claim_C9_witness :
    ((1/5 : ℚ) ≤ 9/5 ∧ (0 : ℚ) < 9/5) ∧
    ((17/10 : ℚ) < zoomInStep (17/10)) ∧ ((1/5 : ℚ) ≤ zoomOutStep (3/10)) := by
  have h := claim_C9_scaleInvariant (9/5) ScaleReachable.init
  exact ⟨h.1, h.2.1 (17/10), h.2.2 (3/10)⟩

/-- Membership in `insertLate` is membership in the original list or being the
inserted element. -/
theorem mem_insertLate (x : Highlight) :
    ∀ (l : List Highlight) (a : Highlight), a ∈ insertLate x l ↔ a = x ∨ a ∈ l
  | [], a => by simp [insertLate]
  | b :: t, a => by
      unfold insertLate
      split_ifs with h
      · simp [List.mem_cons]
      · simp only [List.mem_cons, mem_insertLate x t a]
        tauto

/-- `insertLate` preserves sortedness by `topOf`. -/
theorem insertLate_sorted {x : Highlight} :
    ∀ {l : List Highlight}, l.Sorted topLE → (insertLate x l).Sorted topLE := by
  intro l
  induction l with
  | nil =>
      intro _
      unfold insertLate
      exact List.sorted_singleton x
  | cons b t ih =>
      intro hs
      rw [List.sorted_cons] at hs
      unfold insertLate
      split_ifs with h
      · rw [List.sorted_cons]
        refine ⟨?_, List.sorted_cons.2 hs⟩
        intro c hc
        rcases List.mem_cons.1 hc with rfl | hct
        · exact le_of_lt h
        · exact le_trans (le_of_lt h) (hs.1 c hct)
      · rw [List.sorted_cons]
        refine ⟨?_, ih hs.2⟩
        intro c hc
        rcases (mem_insertLate x t c).1 hc with rfl | hct
        · exact le_of_not_lt h
        · exact hs.1 c hct

/-- `orderedInsert` puts an element that is below the whole list in front. -/
theorem orderedInsert_head (b : Highlight) :
    ∀ (l : List Highlight), (∀ c ∈ l, topLE b c) → List.orderedInsert topLE b l = b :: l
  | [], _ => rfl
  | c :: t, h => by
      unfold List.orderedInsert
      rw [if_pos (h c (List.mem_cons_self c t))]

/-- `insertLate` puts an element strictly below the whole list in front. -/
theorem insertLate_all_gt (x : Highlight) :
    ∀ (l : List Highlight), (∀ c ∈ l, topOf x < topOf c) → insertLate x l = x :: l
  | [], _ => rfl
  | c :: t, h => by
      unfold insertLate
      rw [if_pos (h c (List.mem_cons_self c t))]

/-- Re-sorting a sorted list with one element pushed at its end is exactly the
stable insertion of that element after its equals: this is why sorting after every
push keeps ties in insertion order. -/
theorem sortTop_append_singleton :
    ∀ (s : List Highlight), s.Sorted topLE → ∀ x, sortTop (s ++ [x]) = insertLate x s
  | [], _, x => by simp [sortTop, insertLate]
  | b :: s', hs, x => by
      rw [List.sorted_cons] at hs
      have ih := sortTop_append_singleton s' hs.2 x
      show List.orderedInsert topLE b (sortTop (s' ++ [x])) = insertLate x (b :: s')
      rw [ih, show insertLate x (b :: s') =
        if topOf x < topOf b then x :: b :: s' else b :: insertLate x s' from rfl]
      split_ifs with h
      · have hbx : ¬topLE b x := not_le_of_lt h
        rw [insertLate_all_gt x s' fun c hc => lt_of_lt_of_le h (hs.1 c hc),
          show List.orderedInsert topLE b (x :: s') =
            if topLE b x then b :: x :: s' else x :: List.orderedInsert topLE b s' from rfl,
          if_neg hbx, orderedInsert_head b s' hs.1]
      · refine orderedInsert_head b (insertLate x s') ?_
        intro c hc
        rcases (mem_insertLate x s' c).1 hc with rfl | hct
        · exact le_of_not_lt h
        · exact hs.1 c hct

/-- The page-keyed branch of the reduce touches exactly the highlights of that page:
folding with the guard equals folding over the filtered list. -/
theorem foldl_guard_filter (p : ℤ) :
    ∀ (l : List Highlight) (init : List Highlight),
      l.foldl (fun s h => if h.page_number = p then sortTop (s ++ [h]) else s) init =
        (l.filter fun h => h.page_number == p).foldl (fun s h => sortTop (s ++ [h])) init
  | [], _ => rfl
  | a :: t, init => by
      by_cases h : a.page_number = p
      · rw [List.foldl_cons, if_pos h, List.filter_cons,
          if_pos (by simpa using h), List.foldl_cons]
        exact foldl_guard_filter p t _
      · rw [List.foldl_cons, if_neg h, List.filter_cons, if_neg (by simpa using h)]
        exact foldl_guard_filter p t _

/-- Starting from a sorted accumulator, push-then-sort coincides with stable
insertion. -/
theorem foldl_sortTop_eq_insertLate :
    ∀ (l s : List Highlight), s.Sorted topLE →
      l.foldl (fun s h => sortTop (s ++ [h])) s = l.foldl (fun s h => insertLate h s) s
  | [], _, _ => rfl
  | a :: t, s, hs => by
      rw [List.foldl_cons, List.foldl_cons, sortTop_append_singleton s hs a]
      exact foldl_sortTop_eq_insertLate t (insertLate a s) (insertLate_sorted hs)

/-- The per-page list produced by the reduce is the stable ordering by `rects[0].top`
of the page's highlights in insertion order. -/
theorem pageGroup_eq_stableByTop (p : ℤ) (l : List Highlight) :
    pageGroup p l = stableByTop (l.filter fun h => h.page_number == p) := by
  unfold pageGroup stableByTop
  rw [foldl_guard_filter]
  exact foldl_sortTop_eq_insertLate _ [] List.sorted_nil

/-- Stable insertion folding preserves sortedness. -/
theorem foldl_insertLate_sorted :
    ∀ (l s : List Highlight), s.Sorted topLE →
      (l.foldl (fun s h => insertLate h s) s).Sorted topLE
  | [], _, hs => hs
  | a :: t, s, hs => foldl_insertLate_sorted t (insertLate a s) (insertLate_sorted hs)

/-- Claim C6: the grouped sidebar listing returns its page keys in strictly
ascending numeric order, and each page's list equals the stable ordering of that
page's highlights by ascending `rects[0].top` — `stableByTop` inserts every later
highlight after all earlier ones of equal top, so ties keep insertion order — and
is sorted by `rects[0].top`. -/
theorem claim_C6_grouping (l : List Highlight) (hne : ∀ h ∈ l, h.rects ≠ []) :
    (pagesWithHighlights l).Sorted (· < ·) ∧
    ∀ p : ℤ, pageGroup p l = stableByTop (l.filter fun h => h.page_number == p) ∧
      (pageGroup p l).Sorted topLE := by
  refine ⟨?_, fun p => ⟨pageGroup_eq_stableByTop p l, ?_⟩⟩
  · have hsorted : (pagesWithHighlights l).Sorted (· ≤ ·) := by
      unfold pagesWithHighlights
      exact List.sorted_insertionSort _ _
    have hnodup : (pagesWithHighlights l).Nodup := by
      unfold pagesWithHighlights
      exact (List.perm_insertionSort _ _).nodup_iff.2 (List.nodup_dedup _)
    exact hsorted.lt_of_le hnodup
  · rw [pageGroup_eq_stableByTop]
    exact foldl_insertLate_sorted _ [] List.sorted_nil

/-- Witness for C6: three highlights on pages 2 and 1, two of them tied at the same
top on page 1: pages come out ascending and the tie keeps insertion order. -/
theorem claim_C6_witness :
    (pagesWithHighlights
        [⟨"a", 2, [⟨5, 0, 1, 1⟩], "", none⟩, ⟨"b", 1, [⟨3, 0, 1, 1⟩], "", none⟩,
          ⟨"c", 1, [⟨3, 0, 1, 1⟩], "", none⟩, ⟨"d", 1, [⟨1, 0, 1, 1⟩], "", none⟩]).Sorted
        (· < ·) ∧
    (pageGroup 1
        [⟨"a", 2, [⟨5, 0, 1, 1⟩], "", none⟩, ⟨"b", 1, [⟨3, 0, 1, 1⟩], "", none⟩,
          ⟨"c", 1, [⟨3, 0, 1, 1⟩], "", none⟩, ⟨"d", 1, [⟨1, 0, 1, 1⟩], "", none⟩] =
      stableByTop
        ([⟨"a", 2, [⟨5, 0, 1, 1⟩], "", none⟩, ⟨"b", 1, [⟨3, 0, 1, 1⟩], "", none⟩,
          ⟨"c", 1, [⟨3, 0, 1, 1⟩], "", none⟩,
          ⟨"d", 1, [⟨1, 0, 1, 1⟩], "", none⟩].filter fun h => h.page_number == 1) ∧
      (pageGroup 1
        [⟨"a", 2, [⟨5, 0, 1, 1⟩], "", none⟩, ⟨"b", 1, [⟨3, 0, 1, 1⟩], "", none⟩,
          ⟨"c", 1, [⟨3, 0, 1, 1⟩], "", none⟩,
          ⟨"d", 1, [⟨1, 0, 1, 1⟩], "", none⟩]).Sorted topLE) := by
  have h := claim_C6_grouping
    [⟨"a", 2, [⟨5, 0, 1, 1⟩], "", none⟩, ⟨"b", 1, [⟨3, 0, 1, 1⟩], "", none⟩,
      ⟨"c", 1, [⟨3, 0, 1, 1⟩], "", none⟩, ⟨"d", 1, [⟨1, 0, 1, 1⟩], "", none⟩]
    (by decide)
  exact ⟨h.1, h.2 1⟩

end PdfEditor
